import Mathlib

/-
Verification of the quiz-app server (party / quiz orchestration) against its
natural-language specification.

The TypeScript modules are shallowly embedded:
  * Redis structures are modelled as insertion-ordered association lists
    (hashes), lists (Redis lists) and duplicate-free lists (sets).  `hset`
    and `hincrby` update the first occurrence of a field in place and append
    a fresh field at the end, matching Redis hash semantics as observed
    through `hgetall` reply order.
  * Each stateful operation of `party.ts` / `quiz.ts` becomes an explicit
    state-passing function on a record of the Redis keys it touches.
  * Nondeterministic inputs (generated display names, the answer shuffle,
    the question-provider response) become explicit parameters.
-/

namespace QuizApp

/-- Redis HGET on an insertion-ordered hash: value of the first occurrence of
the field, if any. -/
def hget {α : Type} : List (String × α) → String → Option α
  | [], _ => none
  | p :: rest, k => if p.1 = k then some p.2 else hget rest k

/-- Redis HSET on an insertion-ordered hash: overwrite the first occurrence
of the field in place, or append the field at the end. -/
def hset {α : Type} : List (String × α) → String → α → List (String × α)
  | [], k, v => [(k, v)]
  | p :: rest, k, v =>
    if p.1 = k then (k, v) :: rest else p :: hset rest k v

/-- Redis HINCRBY on a hash of counters: add to the first occurrence of the
field, or create the field holding the increment. -/
def hincrby : List (String × Nat) → String → Nat → List (String × Nat)
  | [], k, d => [(k, d)]
  | p :: rest, k, d =>
    if p.1 = k then (k, p.2 + d) :: rest else p :: hincrby rest k d

/-- Redis HDEL: remove every occurrence of the field. -/
def hdel {α : Type} (h : List (String × α)) (k : String) : List (String × α) :=
  h.filter (fun p => p.1 ≠ k)

/-- Redis SADD on a set modelled as a duplicate-free list: append the member
if it is not already present. -/
def sadd (s : List String) (x : String) : List String :=
  if x ∈ s then s else s ++ [x]

/-- Redis SREM: remove the member. -/
def srem (s : List String) (x : String) : List String :=
  s.filter (fun y => y ≠ x)

/-! ### Party Registry (`party.ts`)

State of one party `partyId` across its Redis keys:
`<partyId>:members` (set), `<partyId>:party-leader` (scalar),
`<partyId>:display-names` (hash), `score:<partyId>` (hash).
TTL refreshes (`redis.expire`) carry no observable value and are not part of
the state. -/

structure PartyState where
  members : List String
  partyLeader : Option String
  displayNames : List (String × String)
  partyScores : List (String × Nat)
deriving Repr, DecidableEq

/-- Embedding of `assignPartyLeader` (`party.ts`): `redis.set` of the
`party-leader` key. -/
def assignPartyLeader (userId : String) (s : PartyState) : PartyState :=
  { s with partyLeader := some userId }

/-- Embedding of `assignDisplayName` (`party.ts`):
`existingDisplayName || generateDefaultDisplayName()` keeps the existing
display name only when it is truthy — a missing name *and* a stored empty
string both fall through to the freshly generated one, which is then
persisted.  The nondeterministic `generateDefaultDisplayName()` result is
the `generated` parameter. -/
def assignDisplayName (userId : String) (generated : String)
    (s : PartyState) : PartyState :=
  let existingDisplayName := hget s.displayNames userId
  let name :=
    match existingDisplayName with
    | some n => if n = "" then generated else n
    | none => generated
  { s with displayNames := hset s.displayNames userId name }

/-- Embedding of `changeDisplayName` (`party.ts`): unconditional overwrite. -/
def changeDisplayName (userId : String) (name : String)
    (s : PartyState) : PartyState :=
  { s with displayNames := hset s.displayNames userId name }

/-- Embedding of `joinParty` (`party.ts`): if the member set is empty the
joining user becomes party leader; then SADD the member, HSET their party
score to 0, and assign a display name.  Socket emissions and the
`user-ready` listener registration carry no party state. -/
def joinParty (userId : String) (generatedName : String)
    (s : PartyState) : PartyState :=
  let s1 := if s.members.length = 0 then assignPartyLeader userId s else s
  let s2 := { s1 with
    members := sadd s1.members userId
    partyScores := hset s1.partyScores userId 0 }
  assignDisplayName userId generatedName s2

/-- Embedding of `removePartyMember` (`party.ts`): SREM the member, HDEL
their party score and display name.  The leader key is untouched. -/
def removePartyMember (userId : String) (s : PartyState) : PartyState :=
  { s with
    members := srem s.members userId
    partyScores := hdel s.partyScores userId
    displayNames := hdel s.displayNames userId }

/-- Embedding of `doesPartyExist` (`party.ts`). -/
def doesPartyExist (s : PartyState) : Bool :=
  s.members.length > 0

/-! ### Helper lemmas on the Redis primitives -/

/-- Overwriting a hash field with the value its first occurrence already
holds leaves the hash unchanged. -/
theorem hset_eq_of_hget {α : Type} (h : List (String × α)) (k : String)
    (v : α) (hv : hget h k = some v) : hset h k v = h := by
  induction h with
  | nil => simp [hget] at hv
  | cons p rest ih =>
    obtain ⟨k0, v0⟩ := p
    by_cases hk : k0 = k
    · subst hk
      simp [hget] at hv
      simp [hset, hv]
    · simp only [hget, if_neg hk] at hv
      simp [hset, hk, ih hv]

theorem sadd_of_mem {s : List String} {x : String} (hx : x ∈ s) :
    sadd s x = s := by
  simp [sadd, hx]

/-- C6: the first user to join while the member set is empty is recorded as
the party leader, and the stored leader id is never changed by any later
operation — a join while the party already has members does not reassign it,
and removing a member (including the leader) does not reassign it; display
name operations do not touch it either. -/
theorem C6_leader_first_joiner_never_reassigned
    (u g v n g2 : String) (s : PartyState) :
    (s.members = [] → (joinParty u g s).partyLeader = some u)
    ∧ (s.members ≠ [] → (joinParty u g s).partyLeader = s.partyLeader)
    ∧ (removePartyMember v s).partyLeader = s.partyLeader
    ∧ (changeDisplayName v n s).partyLeader = s.partyLeader
    ∧ (assignDisplayName v g2 s).partyLeader = s.partyLeader := by
  refine ⟨fun h => ?_, fun h => ?_, ?_, ?_, ?_⟩
  · simp [joinParty, assignPartyLeader, assignDisplayName, h]
  · have hlen : ¬ s.members.length = 0 := by
      intro h0
      exact h (List.length_eq_zero.mp h0)
    simp [joinParty, assignDisplayName, if_neg hlen, h]
  · simp [removePartyMember]
  · simp [changeDisplayName]
  · simp [assignDisplayName]

/-- Witness for C6 at concrete inputs: in an empty party "alice" becomes
leader; a later join by "bob" and a removal of "alice" leave the stored
leader untouched. -/
theorem C6_witness :
    ((PartyState.mk [] none [] []).members = []
      ∧ (joinParty "alice" "brave-otter" (PartyState.mk [] none [] [])).partyLeader
          = some "alice")
    ∧ ((PartyState.mk ["alice"] (some "alice") [] []).members ≠ []
      ∧ (joinParty "bob" "calm-fox" (PartyState.mk ["alice"] (some "alice") [] [])).partyLeader
          = (PartyState.mk ["alice"] (some "alice") [] []).partyLeader)
    ∧ (removePartyMember "alice" (PartyState.mk ["alice"] (some "alice") [] [])).partyLeader
        = (PartyState.mk ["alice"] (some "alice") [] []).partyLeader :=
  ⟨⟨rfl,
    (C6_leader_first_joiner_never_reassigned "alice" "brave-otter" "x" "y" "z"
      (PartyState.mk [] none [] [])).1 rfl⟩,
   ⟨by decide,
    (C6_leader_first_joiner_never_reassigned "bob" "calm-fox" "x" "y" "z"
      (PartyState.mk ["alice"] (some "alice") [] [])).2.1 (by decide)⟩,
   (C6_leader_first_joiner_never_reassigned "u" "g" "alice" "y" "z"
      (PartyState.mk ["alice"] (some "alice") [] [])).2.2.1⟩

/-- Counterexample to C9: "alice" is already a member, but her stored
display name is the empty string (storable via the unvalidated
`change-display-name` handler).  Re-joining is then not a no-op: the falsy
check in `assignDisplayName` regenerates her display name and overwrites
the stored empty string. -/
theorem C9_counterexample :
    joinParty "alice" "brave-otter"
        (PartyState.mk ["alice"] (some "alice") [("alice", "")]
          [("alice", 0)])
      ≠ PartyState.mk ["alice"] (some "alice") [("alice", "")]
          [("alice", 0)] := by
  decide

/-- C9 amended: re-joining as an existing member (party-score entry at its
seeded value 0) leaves the party state — member set, stored leader, display
names, score entries — unchanged provided the member's stored display name
is non-empty; when the stored display name is the empty string, the re-join
overwrites it with a freshly generated name and changes nothing else.  Only
TTLs are refreshed either way. -/
theorem C9_amended_idempotent_unless_empty_display_name
    (u g : String) (s : PartyState) (nm : String)
    (hm : u ∈ s.members) (hs : hget s.partyScores u = some 0)
    (hd : hget s.displayNames u = some nm) :
    (nm ≠ "" → joinParty u g s = s)
    ∧ (nm = "" →
        joinParty u g s
          = { s with displayNames := hset s.displayNames u g }) := by
  have hlen : ¬ s.members.length = 0 := by
    intro h0
    rw [List.length_eq_zero] at h0
    simp [h0] at hm
  refine ⟨fun hne => ?_, fun hemp => ?_⟩
  · simp only [joinParty, if_neg hlen]
    simp [assignDisplayName, hd, hne, sadd_of_mem hm,
      hset_eq_of_hget _ _ _ hs, hset_eq_of_hget _ _ _ hd]
  · subst hemp
    simp only [joinParty, if_neg hlen]
    simp [assignDisplayName, hd, sadd_of_mem hm,
      hset_eq_of_hget _ _ _ hs]

/-- Witness for C9 (amended): re-joining "alice", already a member with
non-empty display name "Al" and party-score entry 0, is the identity on the
party state. -/
theorem C9_amended_witness :
    "alice" ∈ (PartyState.mk ["alice"] (some "alice") [("alice", "Al")]
        [("alice", 0)]).members
    ∧ joinParty "alice" "odd-otter"
          (PartyState.mk ["alice"] (some "alice") [("alice", "Al")]
            [("alice", 0)])
        = PartyState.mk ["alice"] (some "alice") [("alice", "Al")]
            [("alice", 0)] :=
  ⟨by decide,
   (C9_amended_idempotent_unless_empty_display_name "alice" "odd-otter"
      (PartyState.mk ["alice"] (some "alice") [("alice", "Al")]
        [("alice", 0)]) "Al" (by decide) (by decide) (by decide)).1
     (by decide)⟩

/-! ### Score Ledger scorecard (`quiz.ts`, `generateScorecard`) -/

/-- Scorecard entry (`UserScore` in `quiz.ts`).  `answeredCorrectly` is
`correctUsers.includes(userId) || undefined`, an `Option Bool` in the
payload. -/
structure UserScore where
  name : Option String
  id : String
  score : Int
  answeredCorrectly : Option Bool
deriving Repr, DecidableEq

/-- The scorecard before ordering: the `.map` over `Object.entries(scores)`
in `generateScorecard`, joining each scored user with their display name and
with membership in the correct-answerers list. -/
def scorecardEntries (displayNames : List (String × String))
    (scores : List (String × Int)) (correctUsers : List String) :
    List UserScore :=
  scores.map (fun p =>
    { name := hget displayNames p.1
      id := p.1
      score := p.2
      answeredCorrectly := if p.1 ∈ correctUsers then some true else none })

/-- Stable insertion step for a descending sort by score: the new element
goes in front of the first element whose score is not larger, so an element
placed earlier keeps its position relative to equal scores. -/
def insertByScoreDesc (x : UserScore) : List UserScore → List UserScore
  | [] => [x]
  | y :: ys =>
    if y.score ≤ x.score then x :: y :: ys else y :: insertByScoreDesc x ys

/-- Stable descending sort by score.  `scorecard.sort((a, b) => b.score -
a.score)` in `generateScorecard` is a stable sort (ES2019 `Array.sort`);
every stable sort for this comparator yields the same list, so stable
insertion sort is its extensional embedding. -/
def sortByScoreDesc : List UserScore → List UserScore
  | [] => []
  | x :: xs => insertByScoreDesc x (sortByScoreDesc xs)

/-- Embedding of `generateScorecard` (`quiz.ts`): build the entries, then
order them by descending score. -/
def generateScorecard (displayNames : List (String × String))
    (scores : List (String × Int)) (correctUsers : List String) :
    List UserScore :=
  sortByScoreDesc (scorecardEntries displayNames scores correctUsers)

theorem mem_insertByScoreDesc {b x : UserScore} {l : List UserScore} :
    b ∈ insertByScoreDesc x l ↔ b = x ∨ b ∈ l := by
  induction l with
  | nil => simp [insertByScoreDesc]
  | cons y ys ih =>
    by_cases hc : y.score ≤ x.score
    · simp [insertByScoreDesc, if_pos hc]
    · simp only [insertByScoreDesc, if_neg hc, List.mem_cons, ih]
      tauto

theorem mem_sortByScoreDesc {b : UserScore} {l : List UserScore} :
    b ∈ sortByScoreDesc l ↔ b ∈ l := by
  induction l with
  | nil => simp [sortByScoreDesc]
  | cons x xs ih =>
    simp [sortByScoreDesc, mem_insertByScoreDesc, ih]

theorem pairwise_insertByScoreDesc {x : UserScore} {l : List UserScore}
    (h : l.Pairwise (fun a b => b.score ≤ a.score)) :
    (insertByScoreDesc x l).Pairwise (fun a b => b.score ≤ a.score) := by
  induction l with
  | nil => simp [insertByScoreDesc]
  | cons y ys ih =>
    rw [List.pairwise_cons] at h
    obtain ⟨hy, hys⟩ := h
    by_cases hc : y.score ≤ x.score
    · simp only [insertByScoreDesc, if_pos hc]
      refine List.Pairwise.cons ?_ (List.Pairwise.cons hy hys)
      intro b hb
      rcases List.mem_cons.mp hb with hb | hb
      · exact hb ▸ hc
      · exact le_trans (hy b hb) hc
    · simp only [insertByScoreDesc, if_neg hc]
      refine List.Pairwise.cons ?_ (ih hys)
      intro b hb
      rcases mem_insertByScoreDesc.mp hb with hb | hb
      · exact hb ▸ le_of_lt (lt_of_not_le hc)
      · exact hy b hb

theorem pairwise_sortByScoreDesc (l : List UserScore) :
    (sortByScoreDesc l).Pairwise (fun a b => b.score ≤ a.score) := by
  induction l with
  | nil => simp [sortByScoreDesc]
  | cons x xs ih => exact pairwise_insertByScoreDesc ih

theorem filter_insertByScoreDesc (x : UserScore) (l : List UserScore)
    (v : Int) :
    (insertByScoreDesc x l).filter (fun e => e.score = v)
      = if x.score = v then x :: l.filter (fun e => e.score = v)
        else l.filter (fun e => e.score = v) := by
  induction l with
  | nil =>
    by_cases hv : x.score = v <;> simp [insertByScoreDesc, hv]
  | cons y ys ih =>
    by_cases hc : y.score ≤ x.score
    · rw [insertByScoreDesc, if_pos hc]
      by_cases hv : x.score = v <;> simp [List.filter_cons, hv]
    · rw [insertByScoreDesc, if_neg hc]
      have hxy : x.score < y.score := lt_of_not_le hc
      by_cases hv : x.score = v
      · have hyv : ¬ y.score = v := by
          intro h0
          rw [h0, ← hv] at hxy
          exact lt_irrefl _ hxy
        simp [List.filter_cons, hyv, ih, hv]
      · simp [List.filter_cons, ih, hv]

theorem filter_sortByScoreDesc (l : List UserScore) (v : Int) :
    (sortByScoreDesc l).filter (fun e => e.score = v)
      = l.filter (fun e => e.score = v) := by
  induction l with
  | nil => rfl
  | cons x xs ih =>
    by_cases hv : x.score = v <;>
      simp [sortByScoreDesc, filter_insertByScoreDesc, ih,
        List.filter_cons, hv]

/-- C7: every scorecard is sorted by score in descending order, and entries
with equal scores keep their prior relative order — for every score value,
filtering the sorted scorecard ties back exactly to the pre-sort entry list
built in the original key order of the score map. -/
theorem C7_scorecard_sorted_descending_stable
    (displayNames : List (String × String)) (scores : List (String × Int))
    (correctUsers : List String) :
    (generateScorecard displayNames scores correctUsers).Pairwise
        (fun a b => b.score ≤ a.score)
    ∧ ∀ v : Int,
        (generateScorecard displayNames scores correctUsers).filter
            (fun e => e.score = v)
          = (scorecardEntries displayNames scores correctUsers).filter
              (fun e => e.score = v) :=
  ⟨pairwise_sortByScoreDesc _, fun v => filter_sortByScoreDesc _ v⟩

/-- C10: in every scorecard entry, `answeredCorrectly` is `some true`
exactly when the user is recorded among the question's correct answerers and
is `none` (left undefined) otherwise; it is never `some false`, so an
incorrect answerer is indistinguishable from a non-answerer. -/
theorem C10_answeredCorrectly_true_or_undefined
    (displayNames : List (String × String)) (scores : List (String × Int))
    (correctUsers : List String) (e : UserScore)
    (he : e ∈ generateScorecard displayNames scores correctUsers) :
    e.answeredCorrectly ≠ some false
    ∧ (e.answeredCorrectly = some true ↔ e.id ∈ correctUsers) := by
  rw [generateScorecard, mem_sortByScoreDesc, scorecardEntries,
    List.mem_map] at he
  obtain ⟨p, _, hp⟩ := he
  subst hp
  by_cases hmem : p.1 ∈ correctUsers <;> simp [hmem]

/-- Witness for C10 at a concrete scorecard: "alice" answered correctly
("bob" did not appear in the correct list). -/
theorem C10_witness :
    (UserScore.mk (some "Al") "alice" 1 (some true)).answeredCorrectly
        ≠ some false
    ∧ ((UserScore.mk (some "Al") "alice" 1 (some true)).answeredCorrectly
          = some true
        ↔ (UserScore.mk (some "Al") "alice" 1 (some true)).id ∈ ["alice"]) :=
  C10_answeredCorrectly_true_or_undefined [("alice", "Al")] [("alice", 1)]
    ["alice"] (UserScore.mk (some "Al") "alice" 1 (some true)) (by decide)

/-! ### Round Controller answer handling (`quiz.ts`) -/

/-- Raw question shape from the Open Trivia DB provider. -/
structure ApiResponseQuestion where
  category : String
  type : String
  difficulty : String
  question : String
  correct_answer : String
  incorrect_answers : List String
deriving Repr, DecidableEq

/-- Question after `processQuestions`: ordinal and shuffled answers added. -/
structure ProcessedQuestion where
  category : String
  type : String
  difficulty : String
  question : String
  correct_answer : String
  incorrect_answers : List String
  number : Nat
  randomised_answers : Option (List String)
deriving Repr, DecidableEq

/-- Structural-subtyping view used when a `ProcessedQuestion` is passed where
`checkAnswer` expects an `ApiResponseQuestion`. -/
def ProcessedQuestion.toApi (q : ProcessedQuestion) : ApiResponseQuestion :=
  { category := q.category, type := q.type, difficulty := q.difficulty
    question := q.question, correct_answer := q.correct_answer
    incorrect_answers := q.incorrect_answers }

/-- Embedding of `checkAnswer` (`quiz.ts`): strict equality with the stored
correct answer. -/
def checkAnswer (clientAnswer : String) (question : ApiResponseQuestion) :
    Bool :=
  if clientAnswer = question.correct_answer then true else false

/-- State of one question round in one quiz: the keys `score:<quizId>`,
`users-answered-correctly:<quizId>_<n>` and `<quizId>:<n>:answers`. -/
structure QuizState where
  quizScores : List (String × Nat)
  correctUsers : List String
  answerCount : Nat
deriving Repr, DecidableEq

/-- Embedding of `updateQuizScore` (`quiz.ts`): HINCRBY on the quiz score
hash. -/
def updateQuizScore (userId : String) (score : Nat) (s : QuizState) :
    QuizState :=
  { s with quizScores := hincrby s.quizScores userId score }

/-- Embedding of `recordCorrectUser` (`quiz.ts`): LPUSH onto the
correct-answerers list. -/
def recordCorrectUser (userId : String) (s : QuizState) : QuizState :=
  { s with correctUsers := userId :: s.correctUsers }

/-- Embedding of the `answerHandler` closure of `setupAnswerHandling`
(`quiz.ts`).  Emitting `answer-received-…` synchronously runs the
`listenForAllAnswers` listener, whose `redis.incr` bumps the per-question
answer counter; then the answer is checked and, when correct, the score is
incremented by 1 and the user recorded among the correct answerers.  The
`user-answered` broadcast carries no state. -/
def answerHandler (question : ProcessedQuestion) (answer userId : String)
    (s : QuizState) : QuizState :=
  let s1 := { s with answerCount := s.answerCount + 1 }
  if checkAnswer answer question.toApi then
    recordCorrectUser userId (updateQuizScore userId 1 s1)
  else s1

/-- One question round: the quiz keys plus the per-socket single-use answer
handlers.  `setupAnswerHandling` registers the handler with `socket.once`
on each socket in the room (one connected socket per user), so
`pendingHandlers` holds the users whose handler has not yet fired. -/
structure RoundState where
  quiz : QuizState
  pendingHandlers : List String
deriving Repr, DecidableEq

/-- Embedding of `setupAnswerHandling` (`quiz.ts`): a `once` handler per
socket currently in the room. -/
def setupAnswerHandling (roomSockets : List String) (q : QuizState) :
    RoundState :=
  { quiz := q, pendingHandlers := roomSockets }

/-- Delivery of an `answer-<quizId>-<questionNumber>` message from
`userId`'s socket: the `once` handler runs and deregisters if still
registered, otherwise the message is dropped. -/
def receiveAnswer (question : ProcessedQuestion) (answer userId : String)
    (s : RoundState) : RoundState :=
  if userId ∈ s.pendingHandlers then
    { quiz := answerHandler question answer userId s.quiz
      pendingHandlers := s.pendingHandlers.erase userId }
  else s

/-- Score read out of the round state (`getD 0` matches Redis treating a
missing hash field as 0 for HINCRBY). -/
def scoreOf (s : RoundState) (userId : String) : Nat :=
  (hget s.quiz.quizScores userId).getD 0

/-- A whole sequence of answer messages delivered to the round. -/
def runAnswers (question : ProcessedQuestion)
    (evs : List (String × String)) (s : RoundState) : RoundState :=
  evs.foldl (fun t e => receiveAnswer question e.1 e.2 t) s

/-- A concrete question used by the witnesses. -/
def sampleQuestion : ProcessedQuestion :=
  { category := "Geography", type := "multiple", difficulty := "easy"
    question := "What is the capital of France?", correct_answer := "Paris"
    incorrect_answers := ["Rome", "Berlin", "Madrid"], number := 1
    randomised_answers := some ["Rome", "Paris", "Berlin", "Madrid"] }

theorem hget_hincrby_self (h : List (String × Nat)) (k : String) (d : Nat) :
    (hget (hincrby h k d) k).getD 0 = (hget h k).getD 0 + d := by
  induction h with
  | nil => simp [hincrby, hget]
  | cons p rest ih =>
    by_cases hk : p.1 = k
    · rw [hincrby, if_pos hk]
      simp [hget, hk]
    · rw [hincrby, if_neg hk]
      simp [hget, hk, ih]

theorem hget_hincrby_other (h : List (String × Nat)) (k k' : String)
    (d : Nat) (hne : k' ≠ k) : hget (hincrby h k d) k' = hget h k' := by
  induction h with
  | nil => simp [hincrby, hget, Ne.symm hne]
  | cons p rest ih =>
    by_cases hk : p.1 = k
    · rw [hincrby, if_pos hk]
      simp [hget, hk, Ne.symm hne]
    · rw [hincrby, if_neg hk]
      simp [hget, ih]

/-- C4: per user per question, at most one answer is counted — the second
delivery of an answer message from the same user's socket is a complete
no-op on the round state (the `once` handler is gone), so it can neither
bump the answer counter nor change the score again. -/
theorem C4_second_answer_is_noop (question : ProcessedQuestion)
    (a1 a2 u : String) (s : RoundState)
    (h : s.pendingHandlers.count u ≤ 1) :
    receiveAnswer question a2 u (receiveAnswer question a1 u s)
      = receiveAnswer question a1 u s := by
  by_cases hm : u ∈ s.pendingHandlers
  · have hne : s.pendingHandlers.count u ≠ 0 := by
      intro h0
      exact List.count_eq_zero.mp h0 hm
    have h1 : s.pendingHandlers.count u = 1 :=
      le_antisymm h (Nat.one_le_iff_ne_zero.mpr hne)
    have h0 : (s.pendingHandlers.erase u).count u = 0 := by
      rw [List.count_erase_self, h1]
    have hnm : u ∉ s.pendingHandlers.erase u := List.count_eq_zero.mp h0
    have hfirst : receiveAnswer question a1 u s
        = RoundState.mk (answerHandler question a1 u s.quiz)
            (s.pendingHandlers.erase u) := by
      rw [receiveAnswer, if_pos hm]
    rw [hfirst, receiveAnswer, if_neg hnm]
  · have hfirst : receiveAnswer question a1 u s = s := by
      rw [receiveAnswer, if_neg hm]
    rw [hfirst, receiveAnswer, if_neg hm]

/-- Witness for C4: with "alice" and "bob" holding handlers, a second answer
from "alice" changes nothing. -/
theorem C4_witness :
    (RoundState.mk (QuizState.mk [("alice", 0), ("bob", 0)] [] 0)
        ["alice", "bob"]).pendingHandlers.count "alice" ≤ 1
    ∧ receiveAnswer sampleQuestion "Rome" "alice"
        (receiveAnswer sampleQuestion "Paris" "alice"
          (RoundState.mk (QuizState.mk [("alice", 0), ("bob", 0)] [] 0)
            ["alice", "bob"]))
      = receiveAnswer sampleQuestion "Paris" "alice"
          (RoundState.mk (QuizState.mk [("alice", 0), ("bob", 0)] [] 0)
            ["alice", "bob"]) :=
  ⟨by decide,
   C4_second_answer_is_noop sampleQuestion "Paris" "Rome" "alice"
     (RoundState.mk (QuizState.mk [("alice", 0), ("bob", 0)] [] 0)
       ["alice", "bob"]) (by decide)⟩

theorem scoreOf_receiveAnswer_le (question : ProcessedQuestion)
    (answer userId v : String) (s : RoundState) :
    scoreOf s v ≤ scoreOf (receiveAnswer question answer userId s) v := by
  by_cases hm : userId ∈ s.pendingHandlers
  · rw [receiveAnswer, if_pos hm]
    by_cases hc : checkAnswer answer question.toApi
    · by_cases hv : v = userId
      · subst hv
        simp [scoreOf, answerHandler, hc, recordCorrectUser,
          updateQuizScore, hget_hincrby_self]
      · simp [scoreOf, answerHandler, hc, recordCorrectUser,
          updateQuizScore, hget_hincrby_other _ _ _ _ hv]
    · simp [scoreOf, answerHandler, hc]
  · rw [receiveAnswer, if_neg hm]

theorem scoreOf_runAnswers_le (question : ProcessedQuestion)
    (evs : List (String × String)) (v : String) :
    ∀ s : RoundState, scoreOf s v ≤ scoreOf (runAnswers question evs s) v := by
  induction evs with
  | nil =>
    intro s
    simp [runAnswers]
  | cons e rest ih =>
    intro s
    have hstep : runAnswers question (e :: rest) s
        = runAnswers question rest (receiveAnswer question e.1 e.2 s) := rfl
    rw [hstep]
    exact le_trans (scoreOf_receiveAnswer_le question e.1 e.2 v s)
      (ih (receiveAnswer question e.1 e.2 s))

/-- C5: a counted answer increments the answering user's score by exactly 1
when the answer text equals the stored correct answer and leaves every
score untouched when it does not; consequently scores never decrease over
any sequence of delivered answers. -/
theorem C5_score_exact_increment_and_monotone (question : ProcessedQuestion)
    (answer userId : String) (s : RoundState)
    (h : userId ∈ s.pendingHandlers) :
    (answer = question.correct_answer →
        scoreOf (receiveAnswer question answer userId s) userId
            = scoreOf s userId + 1
        ∧ ∀ v, v ≠ userId →
            scoreOf (receiveAnswer question answer userId s) v = scoreOf s v)
    ∧ (answer ≠ question.correct_answer →
        (receiveAnswer question answer userId s).quiz.quizScores
          = s.quiz.quizScores)
    ∧ ∀ (t : RoundState) (evs : List (String × String)) (v : String),
        scoreOf t v ≤ scoreOf (runAnswers question evs t) v := by
  refine ⟨fun hc => ⟨?_, fun v hv => ?_⟩, fun hc => ?_, fun t evs v =>
    scoreOf_runAnswers_le question evs v t⟩
  · have hch : checkAnswer answer question.toApi = true := by
      simp [checkAnswer, ProcessedQuestion.toApi, hc]
    rw [receiveAnswer, if_pos h]
    simp [scoreOf, answerHandler, hch, recordCorrectUser, updateQuizScore,
      hget_hincrby_self]
  · have hch : checkAnswer answer question.toApi = true := by
      simp [checkAnswer, ProcessedQuestion.toApi, hc]
    rw [receiveAnswer, if_pos h]
    simp [scoreOf, answerHandler, hch, recordCorrectUser, updateQuizScore,
      hget_hincrby_other _ _ _ _ hv]
  · have hch : checkAnswer answer question.toApi = false := by
      simp [checkAnswer, ProcessedQuestion.toApi, hc]
    rw [receiveAnswer, if_pos h]
    simp [answerHandler, hch]

/-- Witness for C5: "alice" (holding a handler) answers "Paris" correctly
and her score moves from 0 to 1. -/
theorem C5_witness :
    "alice" ∈ (RoundState.mk (QuizState.mk [("alice", 0)] [] 0)
        ["alice"]).pendingHandlers
    ∧ scoreOf (receiveAnswer sampleQuestion "Paris" "alice"
          (RoundState.mk (QuizState.mk [("alice", 0)] [] 0) ["alice"]))
          "alice"
        = scoreOf (RoundState.mk (QuizState.mk [("alice", 0)] [] 0)
            ["alice"]) "alice" + 1 :=
  ⟨by decide,
   ((C5_score_exact_increment_and_monotone sampleQuestion "Paris" "alice"
      (RoundState.mk (QuizState.mk [("alice", 0)] [] 0) ["alice"])
      (by decide)).1 rfl).1⟩

/-! ### Ready Barrier (`quiz.ts`, `allUsersReady`) -/

/-- Entry pushed onto `usersReady` by the barrier listener: user id and the
display name looked up at acknowledgement time. -/
structure ReadyUser where
  id : String
  name : Option String
deriving Repr, DecidableEq

/-- Local state of one `allUsersReady` barrier instance.  `allUsers` is the
result of the single `redis.smembers` call performed when `allUsersReady`
is invoked; the listener closure captures it for every later comparison. -/
structure BarrierState where
  allUsers : List String
  usersReady : List ReadyUser
deriving Repr, DecidableEq

/-- Embedding of the start of `allUsersReady` (`quiz.ts`): read the member
set once, start with no acknowledgements. -/
def allUsersReadyStart (members : List String) : BarrierState :=
  { allUsers := members, usersReady := [] }

/-- Embedding of the `<partyId>-user-ready` listener in `allUsersReady`: the
acknowledging user is pushed unconditionally, then the new ready count is
compared with the length of the captured `allUsers` list.  The returned
`Bool` is whether `all-users-ready` is broadcast and the promise resolved
(otherwise the percent/these-users progress events fire). -/
def userReadyStep (displayNames : List (String × String)) (userId : String)
    (b : BarrierState) : BarrierState × Bool :=
  let name := hget displayNames userId
  let usersReady := b.usersReady ++ [ReadyUser.mk userId name]
  ({ b with usersReady := usersReady },
   usersReady.length == b.allUsers.length)

/-- The acknowledgement step as claim C1 words it: the live member set is
re-read from the store at the moment of the acknowledgement and completion
compares the ready count against it. -/
def userReadyStepSpec (liveMembers : List String)
    (displayNames : List (String × String)) (userId : String)
    (b : BarrierState) : BarrierState × Bool :=
  let name := hget displayNames userId
  let usersReady := b.usersReady ++ [ReadyUser.mk userId name]
  ({ b with usersReady := usersReady },
   usersReady.length == liveMembers.length)

/-- Counterexample to C1: the barrier starts with members
["alice", "bob"]; "bob" is then removed from the store, so at the moment of
"alice"'s acknowledgement the live member count is 1, equal to the ready
count — the claim's comparison completes, but the code compares against the
cached two-element list and does not complete. -/
theorem C1_counterexample :
    (userReadyStep [] "alice" (allUsersReadyStart ["alice", "bob"])).2
        = false
    ∧ (userReadyStepSpec (srem ["alice", "bob"] "bob") [] "alice"
        (allUsersReadyStart ["alice", "bob"])).2 = true := by
  decide

/-- C1 amended: after each acknowledgement the barrier broadcasts
`all-users-ready` and completes exactly when the ready count equals the
length of the member list read once when `allUsersReady` was invoked — a
count cached at barrier start, not re-read from the store. -/
theorem C1_amended_completion_uses_cached_count
    (displayNames : List (String × String)) (userId : String)
    (b : BarrierState) :
    (userReadyStep displayNames userId b).2 = true
      ↔ b.usersReady.length + 1 = b.allUsers.length := by
  simp [userReadyStep]

/-- Counterexample to C3: with members ["alice", "bob"], "alice"
acknowledges twice; the duplicate acknowledgement raises the ready count to
2 and completes the barrier although "bob" never acknowledged — duplicates
are counted, not ignored. -/
theorem C3_counterexample :
    (userReadyStep [] "alice"
        (userReadyStep [] "alice" (allUsersReadyStart ["alice", "bob"])).1).2
        = true
    ∧ (userReadyStep [] "alice"
        (userReadyStep [] "alice"
          (allUsersReadyStart ["alice", "bob"])).1).1.usersReady.length
        = 2 := by
  decide

/-- C3 amended: ready acknowledgements are not deduplicated by user id —
every `user-ready` event, duplicate or not, is pushed and raises the ready
count by exactly one; the duplicate is not errored, merely counted (and can
complete the barrier early). -/
theorem C3_amended_every_ack_counted (displayNames : List (String × String))
    (userId : String) (b : BarrierState) :
    (userReadyStep displayNames userId b).1.usersReady.length
        = b.usersReady.length + 1
    ∧ (userReadyStep displayNames userId b).1.usersReady.map ReadyUser.id
        = b.usersReady.map ReadyUser.id ++ [userId] := by
  simp [userReadyStep]

/-! ### The timer / all-answers race (`quiz.ts`, `questionResolve`) -/

/-- Listener and timer resources of one question round's race:
`questionResolve` races `timer` against `allAnswersReceived` with
`Promise.any`.
  * `timerActive`: the `setInterval` handle of `timer` is live.
  * `timerCancelOnce`: the once-listener `timer` registers on
    `all-answers-received-<quiz>-<n>` (it clears the interval).
  * `allAnswersOnce`: the once-listener `allAnswersReceived` registers on
    the same event.
  * `answerReceivedListeners`: listeners on `answer-received-<quiz>-<n>`
    (one, installed by `listenForAllAnswers`).
  * `socketAnswerHandlers`: sockets whose single-use handler for
    `answer-<quiz>-<n>` has not fired yet.
  * `ioAnswerListeners`: listeners for `answer-<quiz>-<n>` on the `io`
    server object itself — none are ever registered there, yet
    `io.removeAllListeners` targets exactly these.
  * `resolved`: the `Promise.any` of `questionResolve` has settled. -/
structure RoundRace where
  timerActive : Bool
  timerCancelOnce : Bool
  allAnswersOnce : Bool
  answerReceivedListeners : Nat
  socketAnswerHandlers : List String
  ioAnswerListeners : Nat
  resolved : Bool
deriving Repr, DecidableEq

/-- State right after `runQuestion` has called `setupAnswerHandling` and
`questionResolve` has started both racers. -/
def startQuestionRace (roomSockets : List String) : RoundRace :=
  { timerActive := true, timerCancelOnce := true, allAnswersOnce := true
    answerReceivedListeners := 1, socketAnswerHandlers := roomSockets
    ioAnswerListeners := 0, resolved := false }

/-- Embedding of the `all-answers-received-<quiz>-<n>` emission (the answer
counter reached the member count): both once-listeners fire and are
consumed — `timer`'s listener clears the interval, and
`allAnswersReceived`'s listener removes the `answer-received` listeners,
calls `io.removeAllListeners` (clearing listeners held by the server
object only — the per-socket handlers are untouched) and resolves. -/
def fireAllAnswersReceived (s : RoundRace) : RoundRace :=
  { s with
    timerActive := if s.timerCancelOnce then false else s.timerActive
    timerCancelOnce := false
    allAnswersOnce := false
    answerReceivedListeners :=
      if s.allAnswersOnce then 0 else s.answerReceivedListeners
    ioAnswerListeners := if s.allAnswersOnce then 0 else s.ioAnswerListeners
    resolved := if s.allAnswersOnce then true else s.resolved }

/-- Embedding of the interval callback of `timer` reaching zero:
`clearInterval(time)` and `resolve()`.  Nothing else is torn down. -/
def timerExpires (s : RoundRace) : RoundRace :=
  { s with timerActive := false, resolved := true }

/-- Counterexample to C2: the timer fires first in a round with sockets
["alice", "bob"]; the round resolves, but the `answer-received` emitter
listener, both once-listeners, and both pending per-socket answer handlers
all survive — the pending answer listeners are not discarded. -/
theorem C2_counterexample :
    (timerExpires (startQuestionRace ["alice", "bob"])).resolved = true
    ∧ (timerExpires
        (startQuestionRace ["alice", "bob"])).answerReceivedListeners = 1
    ∧ (timerExpires (startQuestionRace ["alice", "bob"])).socketAnswerHandlers
        = ["alice", "bob"]
    ∧ (timerExpires (startQuestionRace ["alice", "bob"])).allAnswersOnce
        = true := by
  decide

/-- C2 amended: only the answers-first branch cancels its rival — the
`all-answers-received` event clears the timer interval and removes the
per-question `answer-received` emitter listener (while the per-socket
answer handlers are not removed by it, `removeAllListeners` being invoked
on the server object); when the timer fires first, nothing but the interval
is torn down: the emitter listener, the pending once-listener and the
per-socket handlers all remain registered, still keyed to this question's
event names. -/
theorem C2_amended_one_sided_teardown (s : RoundRace)
    (hOnce : s.timerCancelOnce = true) (hAll : s.allAnswersOnce = true) :
    ((fireAllAnswersReceived s).timerActive = false
      ∧ (fireAllAnswersReceived s).answerReceivedListeners = 0
      ∧ (fireAllAnswersReceived s).resolved = true
      ∧ (fireAllAnswersReceived s).socketAnswerHandlers
          = s.socketAnswerHandlers)
    ∧ ((timerExpires s).timerActive = false
      ∧ (timerExpires s).resolved = true
      ∧ (timerExpires s).answerReceivedListeners = s.answerReceivedListeners
      ∧ (timerExpires s).socketAnswerHandlers = s.socketAnswerHandlers
      ∧ (timerExpires s).allAnswersOnce = s.allAnswersOnce) := by
  simp [fireAllAnswersReceived, timerExpires, hOnce, hAll]

/-- Witness for C2 (amended) at a one-socket round. -/
theorem C2_witness :
    (startQuestionRace ["alice"]).timerCancelOnce = true
    ∧ (startQuestionRace ["alice"]).allAnswersOnce = true
    ∧ (timerExpires (startQuestionRace ["alice"])).socketAnswerHandlers
        = (startQuestionRace ["alice"]).socketAnswerHandlers :=
  ⟨rfl, rfl,
   (C2_amended_one_sided_teardown (startQuestionRace ["alice"])
      rfl rfl).2.2.2.2.1⟩

/-! ### Question fetch and the start-quiz handler (`quiz.ts`,
`setupSocketIO`) -/

/-- Embedding of `processQuestions` (`quiz.ts`): add 1-based ordinals and a
shuffled presentation of (incorrect ∪ correct) answers.  The
nondeterministic `shuffle` is the `shuffleFn` parameter. -/
def processQuestions (shuffleFn : List String → List String)
    (questions : List ApiResponseQuestion) : List ProcessedQuestion :=
  questions.enum.map (fun p =>
    { category := p.2.category, type := p.2.type
      difficulty := p.2.difficulty, question := p.2.question
      correct_answer := p.2.correct_answer
      incorrect_answers := p.2.incorrect_answers
      number := p.1 + 1
      randomised_answers :=
        some (shuffleFn (p.2.incorrect_answers ++ [p.2.correct_answer])) })

/-- Embedding of `getQuestions` (`quiz.ts`): the axios call to Open Trivia
DB either fails or yields a result list (`providerResult`); an empty result
list raises the "Could not find enough questions" error, and a provider
failure is re-thrown by the catch block. -/
def getQuestions (shuffleFn : List String → List String)
    (providerResult : Except String (List ApiResponseQuestion)) :
    Except String (List ProcessedQuestion) :=
  match providerResult with
  | Except.error err => Except.error err
  | Except.ok questions =>
    if questions.length = 0 then
      Except.error
        "Could not find enough questions. Try changing the options you selected"
    else Except.ok (processQuestions shuffleFn questions)

/-- Socket emissions of the `start-quiz` handler relevant to C8. -/
inductive Emission where
  | errorToSocket (message : String)
  | newQuizId (quizId : String)
  | quizEvent (tag : String)
  | quizFinished (partyId : String)
deriving Repr, DecidableEq

def countErrorEmissions (evs : List Emission) : Nat :=
  (evs.filter (fun e =>
    match e with
    | Emission.errorToSocket _ => true
    | _ => false)).length

/-- Embedding of the `start-quiz` handler in `setupSocketIO`: after the
ready barrier, `getQuestions` runs inside try/catch — on a throw the catch
emits the error message once to the requesting socket via
`emitErrorMessageToSocket` (`util.ts`, `socket.emit("error", message)`); on
success the new quiz id is broadcast and the quiz runs
(`quizRunEmissions` stands for its broadcasts).  In both branches
`quiz-finished` is then emitted to the party.  The party state is threaded
unchanged: the handler performs no membership operation. -/
def startQuizHandler (shuffleFn : List String → List String)
    (providerResult : Except String (List ApiResponseQuestion))
    (partyId quizId : String) (quizRunEmissions : List Emission)
    (party : PartyState) : List Emission × PartyState :=
  match getQuestions shuffleFn providerResult with
  | Except.error err =>
    ([Emission.errorToSocket err, Emission.quizFinished partyId], party)
  | Except.ok _ =>
    ([Emission.newQuizId quizId] ++ quizRunEmissions
      ++ [Emission.quizFinished partyId], party)

/-- C8: if the question provider fails — including returning zero questions
— `getQuestions` raises an error, the start-quiz handler reports exactly
one error message to the requesting connection, leaves the party's
membership state unchanged, and still emits `quiz-finished` to the party. -/
theorem C8_provider_failure_reported_once_party_intact
    (shuffleFn : List String → List String)
    (providerResult : Except String (List ApiResponseQuestion))
    (partyId quizId : String) (quizRunEmissions : List Emission)
    (party : PartyState)
    (h : (∃ e, providerResult = Except.error e)
      ∨ providerResult = Except.ok []) :
    (∃ msg, getQuestions shuffleFn providerResult = Except.error msg)
    ∧ countErrorEmissions
        (startQuizHandler shuffleFn providerResult partyId quizId
          quizRunEmissions party).1 = 1
    ∧ (startQuizHandler shuffleFn providerResult partyId quizId
        quizRunEmissions party).2 = party
    ∧ Emission.quizFinished partyId
        ∈ (startQuizHandler shuffleFn providerResult partyId quizId
            quizRunEmissions party).1 := by
  obtain ⟨e, he⟩ | he := h <;> subst he <;>
    simp [getQuestions, startQuizHandler, countErrorEmissions]

/-- Witness for C8: an empty provider result for a two-member party. -/
theorem C8_witness :
    ((∃ e, (Except.ok [] : Except String (List ApiResponseQuestion))
        = Except.error e)
      ∨ (Except.ok [] : Except String (List ApiResponseQuestion))
        = Except.ok [])
    ∧ countErrorEmissions
        (startQuizHandler id (Except.ok []) "p1" "quiz1" []
          (PartyState.mk ["alice", "bob"] (some "alice") [] [])).1 = 1
    ∧ (startQuizHandler id (Except.ok []) "p1" "quiz1" []
        (PartyState.mk ["alice", "bob"] (some "alice") [] [])).2
      = PartyState.mk ["alice", "bob"] (some "alice") [] [] :=
  ⟨Or.inr rfl,
   (C8_provider_failure_reported_once_party_intact id (Except.ok [])
      "p1" "quiz1" [] (PartyState.mk ["alice", "bob"] (some "alice") [] [])
      (Or.inr rfl)).2.1,
   (C8_provider_failure_reported_once_party_intact id (Except.ok [])
      "p1" "quiz1" [] (PartyState.mk ["alice", "bob"] (some "alice") [] [])
      (Or.inr rfl)).2.2.1⟩

end QuizApp
